import Mathlib

set_option linter.unusedVariables false
set_option maxRecDepth 40000

/-! Verification development for the RM500Q modem monitor (src/main.c).

Byte strings handled by the serial layer are modelled as `List Nat` (byte
values); configuration-file text is modelled as `List Char` (the file is
read line by line with `fgets`, so the model takes the file as a list of
lines, each line assumed to fit the 256-byte line buffer).

The serial channel seen by one call of `read_response` is modelled as a
queue of read events consumed by successive `read(2)` calls; an exhausted
queue behaves like the VMIN=0/VTIME=10 timeout, i.e. a zero-byte read. -/

/-- One result of the underlying `read(2)` call inside `read_response`
(src/main.c:211): `data bs` delivers the chunk `bs` (with `data []` a
zero-byte read, i.e. the 1-second VTIME timeout expired with no data),
`again` is a failure with errno EAGAIN/EWOULDBLOCK, and `err` is a hard
read failure (any other errno). -/
inductive ReadEv : Type
  | data : List Nat → ReadEv
  | again : ReadEv
  | err : ReadEv
deriving DecidableEq

/-- Outcome of `read_response` (src/main.c:205-235): `ok buf` models the
function returning `total_read = buf.length ≥ 0` with the caller's buffer
holding the data bytes `buf` followed by a terminating NUL written at
index `buf.length` (src/main.c:233); `fail buf` models the `return -1`
path (src/main.c:219), where the data bytes read before the failure are in
the buffer but no NUL has been written. -/
inductive ReadResult : Type
  | ok : List Nat → ReadResult
  | fail : List Nat → ReadResult
deriving DecidableEq

/-- The data bytes stored into the caller's buffer, in either outcome. -/
def ReadResult.stored : ReadResult → List Nat
  | ReadResult.ok b => b
  | ReadResult.fail b => b

/-- The read loop of `read_response` (src/main.c:210-231).  `acc` is the
data accumulated so far (`total_read = acc.length`).  While
`total_read < max_len - 1`, one `read` of at most `max_len - total_read - 1`
bytes is issued (modelled by `List.take`, since `read` returns at most the
requested count): a zero-byte read breaks the loop, EAGAIN/EWOULDBLOCK
continues it, a hard failure returns -1, and after data arrives the loop
breaks as soon as the accumulated buffer contains a newline (byte 10).
The C code checks the newline with `strchr` on the raw buffer; the model
assumes that check sees exactly the accumulated bytes (the C code would
scan uninitialised memory past them when they contain neither a NUL nor a
newline). -/
def readLoop (maxLen : Nat) : List Nat → List ReadEv → ReadResult
  | acc, evs =>
    if acc.length < maxLen - 1 then
      match evs with
      | [] => ReadResult.ok acc
      | ReadEv.again :: rest => readLoop maxLen acc rest
      | ReadEv.err :: _ => ReadResult.fail acc
      | ReadEv.data bs :: rest =>
        let delivered := bs.take (maxLen - 1 - acc.length)
        if delivered = [] then ReadResult.ok acc
        else
          let acc2 := acc ++ delivered
          if 10 ∈ acc2 then ReadResult.ok acc2
          else readLoop maxLen acc2 rest
    else ReadResult.ok acc

/-- `read_response` (src/main.c:205): runs the read loop starting from an
empty buffer.  Faithful for `maxLen ≥ 1` (for `maxLen = 0` the C loop
condition wraps around in `size_t`). -/
def read_response (maxLen : Nat) (evs : List ReadEv) : ReadResult :=
  readLoop maxLen [] evs

/-- The bytes handed to the single `write(2)` call of `send_at_command`
(src/main.c:184-197): `snprintf(cmd_with_cr, 256, "%s\r", command)`
formats the command followed by a carriage return (byte 13), truncated to
255 bytes by the fixed buffer, and the whole NUL-terminated content is
written in one contiguous write of `strlen(cmd_with_cr)` bytes. -/
def cmd_with_cr (command : List Nat) : List Nat := (command ++ [13]).take 255

/-- The serial channel as seen by one command exchange: whether the write
succeeds, and the queue of read events the subsequent reads consume.
(`process_commands` flushes the port before each command, src/main.c:270,
so each exchange starts from a fresh queue.) -/
structure Channel where
  writeOk : Bool
  readEvs : List ReadEv
deriving DecidableEq

/-- `send_at_command` (src/main.c:184): on success returns the bytes
written (one contiguous write); on write failure returns `none`
(the C function returns -1). -/
def send_at_command (ch : Channel) (command : List Nat) : Option (List Nat) :=
  if ch.writeOk then some (cmd_with_cr command) else none

/-- `request_modem_property` (src/main.c:238-250): sends the command, then
reads the response; returns `none` (-1) if either step fails, otherwise
`some buf` (0) with the response bytes in the caller's buffer. -/
def request_modem_property (ch : Channel) (command : List Nat) (maxLen : Nat) :
    Option (List Nat) :=
  match send_at_command ch command with
  | none => none
  | some _ =>
    match read_response maxLen ch.readEvs with
    | ReadResult.ok buf => some buf
    | ReadResult.fail _ => none

/-- The sentinel `"ERROR"` copied into a failing command's slot
(src/main.c:275). -/
def errorSentinel : List Nat := [69, 82, 82, 79, 82]

/-- The response recorded for one command in `process_commands`
(src/main.c:266-277): the exchange's buffer on success, the sentinel
`"ERROR"` on failure.  The buffer size is `sizeof(response) = 1024`. -/
def exchangeResult (ch : Channel) (command : List Nat) : List Nat :=
  match request_modem_property ch command 1024 with
  | some buf => buf
  | none => errorSentinel

/-- The responses recorded for a batch, one per command in configuration
order (src/main.c:266-277); `chans` gives the channel state each command's
exchange sees. -/
def responsesOf (cmds : List (List Nat)) (chans : List Channel) : List (List Nat) :=
  List.zipWith (fun c ch => exchangeResult ch c) cmds chans

/-- What `%s` prints of a stored byte string: everything before the first
NUL byte. -/
def cstr (bs : List Nat) : List Nat := bs.takeWhile (fun b => b ≠ 0)

/-- A quoted CSV field: `"%s"` (34 is the double quote). -/
def quoteField (f : List Nat) : List Nat := 34 :: (f ++ [34])

/-- The bytes one iteration appends to the CSV file (src/main.c:289-298):
the quoted timestamp, then for each response a comma (44) and the quoted
response text, then a newline (10). -/
def csvRow (ts : List Nat) (resps : List (List Nat)) : List Nat :=
  quoteField ts ++ (resps.map (fun r => 44 :: quoteField (cstr r))).flatten ++ [10]

/-- One iteration of `process_commands` (src/main.c:253-299): exchanges
every command in order (collecting `"ERROR"` for failures), then emits one
CSV row.  The model assumes the `malloc` calls succeed. -/
def process_commands (ts : List Nat) (cmds : List (List Nat)) (chans : List Channel) :
    List Nat :=
  csvRow ts (responsesOf cmds chans)

/-! The polling loop of `main` (src/main.c:115-120) and `signal_handler`
(src/main.c:477-479).  The body (`process_commands`) never reads the
`running` flag — the flag is consulted only by the `while` condition — so
the loop is modelled with explicit phases: `check` (the `while (running)`
test), `body` (one complete `process_commands` call, which emits its row),
`sleep` (the `usleep`), and `exited`.  A tick first delivers a possible
asynchronous signal (the handler sets `running = 0`), then performs the
current phase. -/

inductive LoopPhase : Type
  | check : LoopPhase
  | body : LoopPhase
  | sleep : LoopPhase
  | exited : LoopPhase
deriving DecidableEq

structure LoopSt where
  phase : LoopPhase
  running : Bool
  started : Nat
  rows : Nat
deriving DecidableEq

/-- Asynchronous signal delivery: `signal_handler` sets `running = 0`
(src/main.c:478) and nothing else. -/
def sigStep (sig : Bool) (s : LoopSt) : LoopSt :=
  if sig then { s with running := false } else s

/-- One phase of the loop: the `while (running)` check either starts an
iteration or exits; the body runs `process_commands` to completion and
emits its row; the sleep returns to the check. -/
def loopStep (s : LoopSt) : LoopSt :=
  match s.phase with
  | LoopPhase.check =>
    if s.running then { s with phase := LoopPhase.body, started := s.started + 1 }
    else { s with phase := LoopPhase.exited }
  | LoopPhase.body => { s with phase := LoopPhase.sleep, rows := s.rows + 1 }
  | LoopPhase.sleep => { s with phase := LoopPhase.check }
  | LoopPhase.exited => s

def tick (sig : Bool) (s : LoopSt) : LoopSt := loopStep (sigStep sig s)

def loopRun (sigs : List Bool) (s : LoopSt) : LoopSt :=
  sigs.foldl (fun t g => tick g t) s

/-- The program enters the loop with `running = 1`, at the `while` check,
no iteration started, no row emitted. -/
def initSt : LoopSt :=
  { phase := LoopPhase.check, running := true, started := 0, rows := 0 }

/-! Configuration-file parsing (src/main.c:302-403) and its string
helpers (src/main.c:406-438). -/

/-- C `isspace` in the default locale (space, tab, newline, vertical tab,
form feed, carriage return). -/
def isSpaceC (c : Char) : Bool :=
  c == ' ' || c == '\t' || c == '\n' || c == '\x0b' || c == '\x0c' || c == '\r'

/-- C `tolower` on one character (ASCII). -/
def toLowerC (c : Char) : Char :=
  if 'A' ≤ c ∧ c ≤ 'Z' then Char.ofNat (c.toNat + 32) else c

/-- `to_lowercase` (src/main.c:406-410). -/
def to_lowercase (s : List Char) : List Char := s.map toLowerC

/-- `trim_whitespace` (src/main.c:413-428) as its effect on the caller's
buffer.  The function advances a local pointer past leading whitespace —
which cannot change the caller's string — and then writes a terminator
after the last non-whitespace character.  So the buffer keeps its leading
whitespace, loses its trailing whitespace, and an all-whitespace string is
left unchanged (the early `return`). -/
def trim_whitespace (s : List Char) : List Char :=
  if s.dropWhile isSpaceC = [] then s
  else (s.reverse.dropWhile isSpaceC).reverse

/-- `remove_surrounding_quotes` (src/main.c:431-438): when the string has
length > 1 and both ends are double quotes, drop both. -/
def remove_surrounding_quotes (s : List Char) : List Char :=
  if 1 < s.length ∧ s.head? = some '"' ∧ s.getLast? = some '"' then
    (s.drop 1).dropLast
  else s

/-- The `line[strcspn(line, "\r\n")] = '\0'` truncation (src/main.c:325):
keep everything before the first CR or LF. -/
def stripEol (l : List Char) : List Char :=
  l.takeWhile (fun c => !(c == '\r' || c == '\n'))

/-- `strncmp(line, key, strlen(key)) == 0`: `key` is a prefix of `line`. -/
def matchPre : List Char → List Char → Bool
  | [], _ => true
  | _ :: _, [] => false
  | k :: ks, c :: cs => k == c && matchPre ks cs

def isDigitC (c : Char) : Bool := decide ('0' ≤ c) && decide (c ≤ '9')

def digitsValC (s : List Char) : Nat :=
  (s.takeWhile isDigitC).foldl (fun acc c => acc * 10 + (c.toNat - 48)) 0

/-- C `atoi`: skip leading whitespace, optional sign, then leading digits
(0 when there are none). -/
def atoiC (s : List Char) : Int :=
  let t := s.dropWhile isSpaceC
  match t with
  | '-' :: rest => - (Int.ofNat (digitsValC rest))
  | '+' :: rest => Int.ofNat (digitsValC rest)
  | _ => Int.ofNat (digitsValC t)

/-- The state `read_config_file` accumulates (src/main.c:302-403).  The
returned `count` is `commands.length`. -/
structure CfgState where
  device : List Char
  baud_rate : Int
  interval : Int
  output_folder : List Char
  commands : List (List Char)
  in_commands_block : Bool
deriving DecidableEq

/-- State on entry to the read loop: the caller's defaults
(src/main.c:49-57) with `output_folder` re-set at the top of
`read_config_file` (src/main.c:316). -/
def initCfg : CfgState :=
  { device := "/dev/ttyUSB3".toList
    baud_rate := 115200
    interval := 1000
    output_folder := ".".toList
    commands := []
    in_commands_block := false }

/-- The key-matching chain (src/main.c:333-360): the line is lowercased
into a copy for the comparisons while values are taken from the original
line (case preserved).  The second component is false exactly for the
`commands:` branch, whose `continue` (src/main.c:347) skips the
block-handling code for that line. -/
def applyKeys (st : CfgState) (line : List Char) : CfgState × Bool :=
  let lower := to_lowercase line
  if matchPre "device:".toList lower then
    ({ st with device := remove_surrounding_quotes (trim_whitespace (line.drop 7)) }, true)
  else if matchPre "baud_rate:".toList lower then
    ({ st with baud_rate := atoiC (line.drop 10) }, true)
  else if matchPre "commands:".toList lower then
    ({ st with in_commands_block := true }, false)
  else if matchPre "interval:".toList lower then
    ({ st with interval := atoiC (line.drop 9) }, true)
  else if matchPre "output_folder:".toList lower then
    ({ st with output_folder := remove_surrounding_quotes (trim_whitespace (line.drop 14)) }, true)
  else (st, true)

/-- Split on commas the way `strtok(buf, ",")` does: maximal nonempty
runs of non-comma characters. -/
def splitCommaTok (line : List Char) : List (List Char) :=
  (splitAux line).filter (fun t => t ≠ [])
where
  splitAux : List Char → List (List Char)
    | [] => [[]]
    | c :: cs =>
      if c = ',' then [] :: splitAux cs
      else
        match splitAux cs with
        | [] => [[c]]
        | t :: ts => (c :: t) :: ts

def lbraceC : Char := Char.ofNat 123
def rbraceC : Char := Char.ofNat 125

/-- One block line's token loop (src/main.c:370-394): each comma token is
trimmed, unquoted and stored, and `count >= max_count` is tested only
after a store.  So when the count is still below the cap the line
contributes at most `maxCount - count` tokens, but once the cap has been
reached a further line still stores its first token (the out-of-bounds
write `commands[max_count] = ...` in the C code) before the test stops
the loop. -/
def storeTokens (maxCount : Nat) (st : CfgState) (line : List Char) : CfgState :=
  let toks := splitCommaTok line
  let procd := toks.map (fun t => remove_surrounding_quotes (trim_whitespace t))
  let cap := if st.commands.length < maxCount then maxCount - st.commands.length else 1
  { st with commands := st.commands ++ procd.take cap }

/-- The `while (fgets(...))` loop of `read_config_file`
(src/main.c:323-399): strip the line ending, run the key chain, then — in
the commands block and unless the `commands:` branch just consumed the
line — stop the whole file at a line starting with a closing brace, skip
a line starting with an opening brace, and otherwise store the line's
comma tokens.  (The `command_buffer` is cleared after every line, so each
block line is tokenised on its own.) -/
def read_config_lines (maxCount : Nat) : CfgState → List (List Char) → CfgState
  | st, [] => st
  | st, rawLine :: rest =>
    let line := stripEol rawLine
    let p := applyKeys st line
    if p.2 = false then read_config_lines maxCount p.1 rest
    else if p.1.in_commands_block then
      if line.head? = some rbraceC then p.1
      else if line.head? = some lbraceC then read_config_lines maxCount p.1 rest
      else read_config_lines maxCount (storeTokens maxCount p.1 line) rest
    else read_config_lines maxCount p.1 rest

/-- `read_config_file` (src/main.c:302) on a file given as its list of
lines, starting from the caller's defaults.  `main` passes
`max_count = 100` (src/main.c:54,79). -/
def read_config_file (maxCount : Nat) (lines : List (List Char)) : CfgState :=
  read_config_lines maxCount initCfg lines

/-! Helper lemmas. -/

theorem readLoop_nil (maxLen : Nat) (acc : List Nat) :
    readLoop maxLen acc [] = ReadResult.ok acc := by
  rw [readLoop]
  split <;> rfl

theorem readLoop_stop (maxLen : Nat) (acc : List Nat) (evs : List ReadEv)
    (h : ¬ acc.length < maxLen - 1) : readLoop maxLen acc evs = ReadResult.ok acc := by
  rw [readLoop.eq_def]
  simp only [if_neg h]

theorem readLoop_again_eq (maxLen : Nat) (acc : List Nat) (rest : List ReadEv)
    (h : acc.length < maxLen - 1) :
    readLoop maxLen acc (ReadEv.again :: rest) = readLoop maxLen acc rest := by
  rw [readLoop]
  simp [h]

theorem readLoop_err_eq (maxLen : Nat) (acc : List Nat) (rest : List ReadEv)
    (h : acc.length < maxLen - 1) :
    readLoop maxLen acc (ReadEv.err :: rest) = ReadResult.fail acc := by
  rw [readLoop]
  simp [h]

theorem readLoop_data_eq (maxLen : Nat) (acc bs : List Nat) (rest : List ReadEv)
    (h : acc.length < maxLen - 1) :
    readLoop maxLen acc (ReadEv.data bs :: rest) =
      (if bs.take (maxLen - 1 - acc.length) = [] then ReadResult.ok acc
       else if 10 ∈ acc ++ bs.take (maxLen - 1 - acc.length) then
         ReadResult.ok (acc ++ bs.take (maxLen - 1 - acc.length))
       else readLoop maxLen (acc ++ bs.take (maxLen - 1 - acc.length)) rest) := by
  rw [readLoop]
  simp [h]

theorem readLoop_stored_le (maxLen : Nat) (evs : List ReadEv) :
    ∀ acc : List Nat, acc.length ≤ maxLen - 1 →
      (readLoop maxLen acc evs).stored.length ≤ maxLen - 1 := by
  induction evs with
  | nil =>
    intro acc h
    rw [readLoop_nil]
    exact h
  | cons e rest ih =>
    intro acc h
    by_cases hlt : acc.length < maxLen - 1
    · cases e with
      | again =>
        rw [readLoop_again_eq maxLen acc rest hlt]
        exact ih acc h
      | err =>
        rw [readLoop_err_eq maxLen acc rest hlt]
        exact h
      | data bs =>
        rw [readLoop_data_eq maxLen acc bs rest hlt]
        have hlen : (acc ++ bs.take (maxLen - 1 - acc.length)).length ≤ maxLen - 1 := by
          simp [List.length_take]
          omega
        split
        · exact h
        · split
          · exact hlen
          · exact ih _ hlen
    · rw [readLoop_stop maxLen acc _ hlt]
      exact h

theorem zipWith_getElem?_eq {α β γ : Type} (f : α → β → γ) :
    ∀ (as : List α) (bs : List β) (i : Nat) (a : α) (b : β),
      as[i]? = some a → bs[i]? = some b → (List.zipWith f as bs)[i]? = some (f a b) := by
  intro as
  induction as with
  | nil =>
    intro bs i a b ha _
    simp at ha
  | cons x xs ih =>
    intro bs i a b ha hb
    cases bs with
    | nil => simp at hb
    | cons y ys =>
      cases i with
      | zero =>
        simp only [List.getElem?_cons_zero, Option.some.injEq] at ha hb
        simp [List.zipWith, ha, hb]
      | succ n =>
        simp only [List.getElem?_cons_succ] at ha hb
        simpa [List.zipWith] using ih ys n a b ha hb

theorem tick_stopped (g : Bool) (s : LoopSt) (h : s.running = false) :
    (tick g s).running = false ∧ (tick g s).started = s.started := by
  cases s with
  | mk ph r sd rs =>
    simp only at h
    subst h
    cases ph <;> cases g <;> simp [tick, sigStep, loopStep]

theorem loopRun_stopped (sigs : List Bool) (s : LoopSt) (h : s.running = false) :
    (loopRun sigs s).running = false ∧ (loopRun sigs s).started = s.started := by
  induction sigs generalizing s with
  | nil => exact ⟨h, rfl⟩
  | cons g gs ih =>
    have ht := tick_stopped g s h
    have hr := ih (tick g s) ht.1
    exact ⟨hr.1, hr.2.trans ht.2⟩

/-- Invariant tying emitted rows to started iterations: inside the body
one row is pending; elsewhere every started iteration has emitted its
row. -/
def balanced (s : LoopSt) : Prop :=
  (s.phase = LoopPhase.body → s.started = s.rows + 1) ∧
  (¬ s.phase = LoopPhase.body → s.started = s.rows)

theorem tick_balanced (g : Bool) (s : LoopSt) (hb : balanced s) : balanced (tick g s) := by
  obtain ⟨h1, h2⟩ := hb
  cases s with
  | mk ph r sd rs =>
    simp only [balanced] at h1 h2 ⊢
    cases ph <;> cases r <;> cases g <;>
      simp [tick, sigStep, loopStep] at h1 h2 ⊢ <;> omega

theorem loopRun_balanced (sigs : List Bool) (s : LoopSt) (hb : balanced s) :
    balanced (loopRun sigs s) := by
  induction sigs generalizing s with
  | nil => exact hb
  | cons g gs ih => exact ih (tick g s) (tick_balanced g s hb)

theorem tick_body_rows (g : Bool) (s : LoopSt) (h : s.phase = LoopPhase.body) :
    (tick g s).rows = s.rows + 1 := by
  cases s with
  | mk ph r sd rs =>
    simp only at h
    subst h
    cases g <;> cases r <;> simp [tick, sigStep, loopStep]

theorem matchPre_append_self (k rest : List Char) : matchPre k (k ++ rest) = true := by
  induction k with
  | nil => rfl
  | cons c cs ih => simp [matchPre, ih]

theorem to_lowercase_append (a b : List Char) :
    to_lowercase (a ++ b) = to_lowercase a ++ to_lowercase b := by
  simp [to_lowercase]

theorem takeWhile_append_all {α : Type} (p : α → Bool) (a b : List α)
    (h : ∀ c ∈ a, p c = true) :
    List.takeWhile p (a ++ b) = a ++ List.takeWhile p b := by
  induction a with
  | nil => simp
  | cons x xs ih =>
    have hx := h x (by simp)
    simp only [List.cons_append, List.takeWhile_cons, hx, if_true]
    rw [ih (fun c hc => h c (by simp [hc]))]

theorem dropWhile_sub {α : Type} (p : α → Bool) (l : List α) :
    ∃ u, l = u ++ l.dropWhile p :=
  ⟨l.takeWhile p, (List.takeWhile_append_dropWhile p l).symm⟩

theorem trim_whitespace_pre (s : List Char) : ∃ r, s = trim_whitespace s ++ r := by
  rw [trim_whitespace]
  split
  · exact ⟨[], by simp⟩
  · obtain ⟨u, hu⟩ := dropWhile_sub isSpaceC s.reverse
    refine ⟨u.reverse, ?_⟩
    calc s = s.reverse.reverse := by simp
    _ = (u ++ s.reverse.dropWhile isSpaceC).reverse := by rw [← hu]
    _ = (s.reverse.dropWhile isSpaceC).reverse ++ u.reverse := by simp

theorem dropLast_sub {α : Type} (l : List α) : ∃ r, l = l.dropLast ++ r := by
  induction l with
  | nil => exact ⟨[], rfl⟩
  | cons x xs ih =>
    cases xs with
    | nil => exact ⟨[x], rfl⟩
    | cons y ys =>
      obtain ⟨r, hr⟩ := ih
      refine ⟨r, ?_⟩
      rw [List.dropLast_cons₂, List.cons_append, ← hr]

theorem remove_quotes_sub (s : List Char) :
    ∃ l r, s = l ++ remove_surrounding_quotes s ++ r := by
  rw [remove_surrounding_quotes]
  split
  · obtain ⟨r, hr⟩ := dropLast_sub (s.drop 1)
    refine ⟨s.take 1, r, ?_⟩
    conv_lhs => rw [← List.take_append_drop 1 s]
    rw [List.append_assoc, ← hr]
  · exact ⟨[], [], by simp⟩

theorem stripEol_pre (s : List Char) : ∃ r, s = stripEol s ++ r :=
  ⟨s.dropWhile (fun c => !(c == '\r' || c == '\n')),
    (List.takeWhile_append_dropWhile _ s).symm⟩

/-- Parsing a one-line file whose single line is a device key (any
casing whose lowercase form is `device:`) followed by a value: the stored
device is the value with the end-of-line stripped, trailing whitespace
trimmed, and surrounding quotes removed. -/
theorem parse_device_single (mc : Nat) (k v : List Char)
    (hlow : to_lowercase k = "device:".toList)
    (hlen : k.length = 7)
    (hkeep : ∀ c ∈ k, (!(c == '\r' || c == '\n')) = true) :
    (read_config_file mc [k ++ v]).device =
      remove_surrounding_quotes (trim_whitespace (stripEol v)) := by
  have hse : stripEol (k ++ v) = k ++ stripEol v := takeWhile_append_all _ k v hkeep
  have hmatch : matchPre "device:".toList (to_lowercase (k ++ stripEol v)) = true := by
    rw [to_lowercase_append, hlow]
    exact matchPre_append_self _ _
  have hdrop : (k ++ stripEol v).drop 7 = stripEol v := by
    rw [← hlen]
    exact List.drop_left k _
  rw [read_config_file, read_config_lines]
  simp only [hse, applyKeys, to_lowercase_append, hlow, matchPre_append_self, hdrop]
  simp [read_config_lines, initCfg]

/-! Claim theorems. -/

/-- C1: for a batch of N configured commands (N channels, one per
command), one iteration of `process_commands` emits exactly one CSV row:
the quoted timestamp followed by exactly N quoted response fields, the
i-th field coming from the i-th configured command (configuration order),
and every command whose exchange failed contributes the sentinel `ERROR`
in its slot. -/
theorem c1_batch_row_shape (ts : List Nat) (cmds : List (List Nat)) (chans : List Channel)
    (h : chans.length = cmds.length) :
    process_commands ts cmds chans = csvRow ts (responsesOf cmds chans) ∧
    (responsesOf cmds chans).length = cmds.length ∧
    ∀ (i : Nat) (c : List Nat) (ch : Channel), cmds[i]? = some c → chans[i]? = some ch →
      (responsesOf cmds chans)[i]? = some (exchangeResult ch c) ∧
      (request_modem_property ch c 1024 = none →
        (responsesOf cmds chans)[i]? = some errorSentinel) := by
  refine ⟨rfl, ?_, ?_⟩
  · rw [responsesOf, List.length_zipWith, h, Nat.min_self]
  · intro i c ch hc hch
    have hz := zipWith_getElem?_eq (fun c ch => exchangeResult ch c) cmds chans i c ch hc hch
    refine ⟨hz, ?_⟩
    intro hfail
    rw [responsesOf, hz]
    simp [exchangeResult, hfail]

theorem c1_witness :
    ([Channel.mk false [], Channel.mk true [ReadEv.data [79, 75, 10]]].length =
      ([[65, 84, 49], [65, 84, 50]] : List (List Nat)).length) ∧
    (responsesOf [[65, 84, 49], [65, 84, 50]]
      [Channel.mk false [], Channel.mk true [ReadEv.data [79, 75, 10]]]).length =
      ([[65, 84, 49], [65, 84, 50]] : List (List Nat)).length :=
  ⟨rfl, (c1_batch_row_shape [] [[65, 84, 49], [65, 84, 50]]
      [Channel.mk false [], Channel.mk true [ReadEv.data [79, 75, 10]]] rfl).2.1⟩

/-- C2: for every capacity maxLen ≥ 1, `read_response` stores at most
maxLen - 1 data bytes into the caller's buffer (on the error path too),
and on every successful return the terminating NUL is written at index
`buf.length`, which is strictly less than maxLen. -/
theorem c2_read_response_bounds (maxLen : Nat) (evs : List ReadEv) (h : 1 ≤ maxLen) :
    (read_response maxLen evs).stored.length ≤ maxLen - 1 ∧
    ∀ buf, read_response maxLen evs = ReadResult.ok buf →
      buf.length ≤ maxLen - 1 ∧ buf.length < maxLen := by
  have hb := readLoop_stored_le maxLen evs [] (by simp)
  refine ⟨hb, ?_⟩
  intro buf hbuf
  rw [read_response] at hbuf
  rw [hbuf] at hb
  simp only [ReadResult.stored] at hb
  exact ⟨hb, by omega⟩

theorem c2_witness :
    1 ≤ 4 ∧ (read_response 4 [ReadEv.data [65, 66, 67, 68, 69]]).stored.length ≤ 4 - 1 :=
  ⟨by decide, (c2_read_response_bounds 4 [ReadEv.data [65, 66, 67, 68, 69]] (by decide)).1⟩

/-- C5: while the loop is still running (the accumulated count is below
the cap), a zero-byte read ends the loop immediately with the accumulated
bytes as a success, an EAGAIN/EWOULDBLOCK read is retried without
terminating the loop, and only a hard read failure produces the error
result; in particular a first zero-byte read makes `read_response`
succeed with an empty buffer. -/
theorem c5_zero_eagain_error (maxLen : Nat) (acc : List Nat) (rest : List ReadEv)
    (h : acc.length < maxLen - 1) :
    readLoop maxLen acc (ReadEv.data [] :: rest) = ReadResult.ok acc ∧
    readLoop maxLen acc (ReadEv.again :: rest) = readLoop maxLen acc rest ∧
    readLoop maxLen acc (ReadEv.err :: rest) = ReadResult.fail acc ∧
    read_response maxLen (ReadEv.data [] :: rest) = ReadResult.ok [] := by
  have h0 : ([] : List Nat).length < maxLen - 1 := by simp; omega
  refine ⟨?_, readLoop_again_eq maxLen acc rest h, readLoop_err_eq maxLen acc rest h, ?_⟩
  · rw [readLoop_data_eq maxLen acc [] rest h]
    simp
  · rw [read_response, readLoop_data_eq maxLen [] [] rest h0]
    simp

theorem c5_witness :
    ([] : List Nat).length < 8 - 1 ∧ readLoop 8 [] [ReadEv.err] = ReadResult.fail [] :=
  ⟨by decide, (c5_zero_eagain_error 8 [] [] (by decide)).2.2.1⟩

/-- C10: when the write succeeds and the first underlying read returns
zero bytes (the VTIME timeout with no data), `request_modem_property`
returns success with an empty response, the recorded slot is the empty
string and not the `ERROR` sentinel (the code has no separate timeout
error), and the logged CSV field for that command is the quoted empty
string `,""`. -/
theorem c10_timeout_empty_field (ts cmd : List Nat) (rest : List ReadEv) :
    request_modem_property (Channel.mk true (ReadEv.data [] :: rest)) cmd 1024 = some [] ∧
    exchangeResult (Channel.mk true (ReadEv.data [] :: rest)) cmd = [] ∧
    exchangeResult (Channel.mk true (ReadEv.data [] :: rest)) cmd ≠ errorSentinel ∧
    process_commands ts [cmd] [Channel.mk true (ReadEv.data [] :: rest)] =
      quoteField ts ++ [44, 34, 34, 10] := by
  have hr : read_response 1024 (ReadEv.data [] :: rest) = ReadResult.ok [] := by
    rw [read_response, readLoop_data_eq 1024 [] [] rest (by simp)]
    simp
  have hreq : request_modem_property (Channel.mk true (ReadEv.data [] :: rest)) cmd 1024 =
      some [] := by
    simp [request_modem_property, send_at_command, hr]
  have hex : exchangeResult (Channel.mk true (ReadEv.data [] :: rest)) cmd = [] := by
    simp [exchangeResult, hreq]
  refine ⟨hreq, hex, ?_, ?_⟩
  · rw [hex]
    simp [errorSentinel]
  · simp [process_commands, responsesOf, csvRow, hex, cstr, quoteField]

/-- C4 counterexample: for the 255-byte command consisting of 255 copies
of byte 65, the `snprintf` truncation drops the carriage-return
terminator: the bytes written are not the command followed by CR, and the
written count is 255, not len+1 = 256. -/
theorem c4_truncation_cex :
    cmd_with_cr (List.replicate 255 65) ≠ List.replicate 255 65 ++ [13] ∧
    (cmd_with_cr (List.replicate 255 65)).length ≠
      (List.replicate 255 65 : List Nat).length + 1 := by
  constructor
  · decide
  · decide

/-- C4 (amended): for every command of length at most 254 bytes whose
write succeeds, `send_at_command` writes the command followed by exactly
one carriage-return terminator as one contiguous write, and the written
byte count is len(C) + 1. -/
theorem c4_send_appends_cr (ch : Channel) (cmd : List Nat)
    (hw : ch.writeOk = true) (hlen : cmd.length ≤ 254) :
    send_at_command ch cmd = some (cmd ++ [13]) ∧
    cmd_with_cr cmd = cmd ++ [13] ∧
    (cmd_with_cr cmd).length = cmd.length + 1 := by
  have hc : cmd_with_cr cmd = cmd ++ [13] := by
    rw [cmd_with_cr]
    apply List.take_of_length_le
    simp
    omega
  refine ⟨?_, hc, ?_⟩
  · simp [send_at_command, hw, hc]
  · rw [hc]
    simp

theorem c4_witness :
    (Channel.mk true []).writeOk = true ∧ ([65, 84] : List Nat).length ≤ 254 ∧
    send_at_command (Channel.mk true []) [65, 84] = some ([65, 84] ++ [13]) :=
  ⟨rfl, by decide, (c4_send_appends_cr (Channel.mk true []) [65, 84] rfl (by decide)).1⟩

/-- C6: once a signal has cleared the running flag, the loop never starts
another iteration (`started` stays constant under any further schedule);
whenever the loop has exited, every started batch has emitted its full
row (`rows = started`); and a signal arriving during the body does not
interrupt it — the row of the current batch is still emitted, because the
flag is consulted only by the `while` check at iteration boundaries. -/
theorem c6_shutdown_at_boundary (sigs sigsB : List Bool) (g : Bool)
    (h : (loopRun sigs initSt).running = false) :
    (loopRun sigsB (loopRun sigs initSt)).started = (loopRun sigs initSt).started ∧
    ((loopRun sigs initSt).phase = LoopPhase.exited →
      (loopRun sigs initSt).rows = (loopRun sigs initSt).started) ∧
    (∀ s : LoopSt, s.phase = LoopPhase.body → (tick g s).rows = s.rows + 1) := by
  refine ⟨(loopRun_stopped sigsB _ h).2, ?_, fun s => tick_body_rows g s⟩
  intro hex
  have hb := loopRun_balanced sigs initSt (by simp [balanced, initSt])
  have hs := hb.2 (by rw [hex]; simp)
  omega

theorem c6_witness :
    (loopRun [true] initSt).running = false ∧
    (loopRun [] (loopRun [true] initSt)).started = (loopRun [true] initSt).started ∧
    ((loopRun [true] initSt).phase = LoopPhase.exited ∧
      (loopRun [true] initSt).rows = (loopRun [true] initSt).started) ∧
    ((loopRun [false] initSt).phase = LoopPhase.body ∧
      (tick true (loopRun [false] initSt)).rows = (loopRun [false] initSt).rows + 1) :=
  ⟨by decide, (c6_shutdown_at_boundary [true] [] true (by decide)).1,
    ⟨by decide, (c6_shutdown_at_boundary [true] [] true (by decide)).2.1 (by decide)⟩,
    ⟨by decide, (c6_shutdown_at_boundary [true] [] true (by decide)).2.2
      (loopRun [false] initSt) (by decide)⟩⟩

/-- C7: key matching is case-insensitive — `Device:`, `DEVICE:` and
`device:` followed by the same value text all store the same device — and
the stored value preserves the case of the original line text: it is a
contiguous substring of the value text as written (only characters are
removed by the trimming and quote-stripping, none are changed). -/
theorem c7_keys_case_insensitive (v : List Char) :
    ((read_config_file 100 ["Device:".toList ++ v]).device =
        (read_config_file 100 ["device:".toList ++ v]).device ∧
      (read_config_file 100 ["DEVICE:".toList ++ v]).device =
        (read_config_file 100 ["device:".toList ++ v]).device) ∧
    ∃ l r, v = l ++ (read_config_file 100 ["device:".toList ++ v]).device ++ r := by
  have h1 := parse_device_single 100 ("Device:".toList) v (by decide) (by decide) (by decide)
  have h2 := parse_device_single 100 ("device:".toList) v (by decide) (by decide) (by decide)
  have h3 := parse_device_single 100 ("DEVICE:".toList) v (by decide) (by decide) (by decide)
  refine ⟨⟨h1.trans h2.symm, h3.trans h2.symm⟩, ?_⟩
  rw [h2]
  obtain ⟨r1, hr1⟩ := stripEol_pre v
  obtain ⟨r2, hr2⟩ := trim_whitespace_pre (stripEol v)
  obtain ⟨l3, r3, hr3⟩ := remove_quotes_sub (trim_whitespace (stripEol v))
  refine ⟨l3, r3 ++ r2 ++ r1, ?_⟩
  conv_lhs => rw [hr1, hr2, hr3]
  simp [List.append_assoc]

/-- C3: parsing the single-line block form yields the empty command list
(everything after `commands:` on that line is discarded by the
`continue`), not the claimed list; the multi-line form recovers the
commands in order with quotes stripped, but the second command keeps its
leading space because `trim_whitespace` cannot remove leading whitespace
through a by-value pointer. -/
theorem c3_roundtrip_fails :
    (read_config_file 100 ["commands: \x7b \"AT+CSQ\", AT+CREG? \x7d".toList]).commands = [] ∧
    (read_config_file 100 ["commands: \x7b \"AT+CSQ\", AT+CREG? \x7d".toList]).commands ≠
      ["AT+CSQ".toList, "AT+CREG?".toList] ∧
    (read_config_file 100
        ["commands: \x7b".toList, "\"AT+CSQ\", AT+CREG?".toList, "\x7d".toList]).commands =
      ["AT+CSQ".toList, " AT+CREG?".toList] := by
  refine ⟨by decide, by decide, by decide⟩

/-- C8: on the spec's scenario file the code returns count 2, baud 9600
and interval 500 as claimed, but the device is stored as ` /dev/ttyS0`
and the second command as ` AT+CREG?` — the leading spaces survive
because `trim_whitespace` advances only a local pointer. -/
theorem c8_scenario_actual :
    (read_config_file 100 ["device: /dev/ttyS0".toList, "baud_rate: 9600".toList,
        "interval: 500".toList, "commands: \x7b".toList, "AT+CSQ, AT+CREG?".toList,
        "\x7d".toList]).device = " /dev/ttyS0".toList ∧
    (read_config_file 100 ["device: /dev/ttyS0".toList, "baud_rate: 9600".toList,
        "interval: 500".toList, "commands: \x7b".toList, "AT+CSQ, AT+CREG?".toList,
        "\x7d".toList]).baud_rate = 9600 ∧
    (read_config_file 100 ["device: /dev/ttyS0".toList, "baud_rate: 9600".toList,
        "interval: 500".toList, "commands: \x7b".toList, "AT+CSQ, AT+CREG?".toList,
        "\x7d".toList]).interval = 500 ∧
    (read_config_file 100 ["device: /dev/ttyS0".toList, "baud_rate: 9600".toList,
        "interval: 500".toList, "commands: \x7b".toList, "AT+CSQ, AT+CREG?".toList,
        "\x7d".toList]).commands = ["AT+CSQ".toList, " AT+CREG?".toList] ∧
    (read_config_file 100 ["device: /dev/ttyS0".toList, "baud_rate: 9600".toList,
        "interval: 500".toList, "commands: \x7b".toList, "AT+CSQ, AT+CREG?".toList,
        "\x7d".toList]).commands.length = 2 ∧
    (read_config_file 100 ["device: /dev/ttyS0".toList, "baud_rate: 9600".toList,
        "interval: 500".toList, "commands: \x7b".toList, "AT+CSQ, AT+CREG?".toList,
        "\x7d".toList]).device ≠ "/dev/ttyS0".toList ∧
    (read_config_file 100 ["device: /dev/ttyS0".toList, "baud_rate: 9600".toList,
        "interval: 500".toList, "commands: \x7b".toList, "AT+CSQ, AT+CREG?".toList,
        "\x7d".toList]).commands ≠ ["AT+CSQ".toList, "AT+CREG?".toList] := by
  refine ⟨by decide, by decide, by decide, by decide, by decide, by decide, by decide⟩

/-- C9: a line after the closing brace is indeed ignored (the `device:`
line following `}` does not change the device), but commands beyond
max_count are not always silently dropped: with max_count = 1, the block
lines `A,B` and `C` store TWO commands — the cap check runs only after a
store, so the first token of a later block line is still written (in the
C code this is the out-of-bounds write `commands[max_count]`). -/
theorem c9_cap_not_enforced_across_lines :
    (read_config_file 1 ["commands: \x7b".toList, "A,B".toList, "C".toList,
        "\x7d".toList, "device: zzz".toList]).commands = ["A".toList, "C".toList] ∧
    1 < (read_config_file 1 ["commands: \x7b".toList, "A,B".toList, "C".toList,
        "\x7d".toList, "device: zzz".toList]).commands.length ∧
    (read_config_file 1 ["commands: \x7b".toList, "A,B".toList, "C".toList,
        "\x7d".toList, "device: zzz".toList]).device = "/dev/ttyUSB3".toList := by
  refine ⟨by decide, by decide, by decide⟩
